import Mathlib

/-!
Shallow embedding of the analytics pipeline of this repository
(`step_by_step_analytics.py` and `visualizations.py`): tables, the
six-step analysis report, the quality scores, the business-intelligence
insights, the recommendation list, strong-correlation reporting,
seasonality detection and time-series preparation, together with
theorems settling the specification claims about them.

Floating-point quantities of the source are modelled over `ℚ`;
comparisons against a float NaN are false and a positive value divided
by a float zero is `+inf` (greater than any threshold), and the
definitions below spell these cases out where the source relies on
them.  Dates are modelled by their parse results: each column records
whether `pd.to_datetime` succeeds on its head sample and on the whole
column, since only these outcomes are consumed by the analytics code.
-/

/-- A cell value in a table: numeric, string, or missing (NaN). -/
inductive Val where
  | num (q : ℚ)
  | str (s : String)
  | null
deriving DecidableEq, Repr

/-- A named column.  `isNumericDtype` is the pandas dtype classification
used by `select_dtypes(include=[np.number])`; `headDate` records whether
`pd.to_datetime(data[col].head())` succeeds and `fullDate` whether
`pd.to_datetime(data[col])` succeeds on the whole column. -/
structure Column where
  name : String
  isNumericDtype : Bool
  headDate : Bool
  fullDate : Bool
  cells : List Val
deriving DecidableEq, Repr

/-- A table (pandas `DataFrame`): an ordered list of named columns. -/
structure Table where
  cols : List Column
deriving DecidableEq, Repr

/-- `len(data)`: the row count, read off the first column. -/
def nRows (t : Table) : ℕ :=
  match t.cols with
  | [] => 0
  | c :: _ => c.cells.length

/-- `len(data) * len(data.columns)` from `_step_2_data_quality`. -/
def total_cells (t : Table) : ℕ := nRows t * t.cols.length

/-- Number of null cells in one column (`col.isnull().sum()`). -/
def countNull : List Val → ℕ
  | [] => 0
  | v :: r => (if v = Val.null then 1 else 0) + countNull r

/-- `data.isnull().sum().sum()` from `_step_2_data_quality`. -/
def null_cells (t : Table) : ℕ := (t.cols.map (fun c => countNull c.cells)).sum

/-- `completeness_score = ((total_cells - null_cells) / total_cells) * 100`. -/
def completeness_score (t : Table) : ℚ :=
  ((total_cells t : ℚ) - (null_cells t : ℚ)) / (total_cells t : ℚ) * 100

/-- Row `i` of the table, as the tuple of values across all columns. -/
def rowAt (t : Table) (i : ℕ) : List (Option Val) := t.cols.map (fun c => c.cells[i]?)

/-- All rows of the table in order. -/
def rowsOf (t : Table) : List (List (Option Val)) := (List.range (nRows t)).map (rowAt t)

/-- `data.duplicated().sum()`: the number of rows that exactly match an
earlier row across all column values, i.e. the row count minus the number
of distinct rows. -/
def duplicate_rows (t : Table) : ℕ := nRows t - (rowsOf t).dedup.length

/-- `consistency_score = ((len(data) - duplicate_rows) / len(data)) * 100`. -/
def consistency_score (t : Table) : ℚ :=
  ((nRows t : ℚ) - (duplicate_rows t : ℚ)) / (nRows t : ℚ) * 100

/-- Which completeness message `_step_2_data_quality` produces: the
"Excellent data completeness" strength, the "Good data completeness"
strength, or the "Data has significant missing values" issue. -/
inductive CompletenessNote where
  | excellent
  | good
  | missingValuesIssue
deriving DecidableEq, Repr

/-- The `if completeness_score > 95 / elif > 85 / else` cascade of
`_step_2_data_quality` (lines 205-210 of `step_by_step_analytics.py`). -/
def completeness_note (t : Table) : CompletenessNote :=
  if completeness_score t > 95 then CompletenessNote.excellent
  else if completeness_score t > 85 then CompletenessNote.good
  else CompletenessNote.missingValuesIssue

/-- Replace cell `j` of column `i` by null, all else fixed. -/
def mapAt : List Column → ℕ → (Column → Column) → List Column
  | [], _, _ => []
  | c :: r, 0, f => f c :: r
  | c :: r, i + 1, f => c :: mapAt r i f

/-- The table with cell `(i, j)` replaced by null. -/
def setNullCell (t : Table) (i j : ℕ) : Table :=
  ⟨mapAt t.cols i (fun c => { c with cells := c.cells.set j Val.null })⟩

lemma length_mapAt (l : List Column) (i : ℕ) (f : Column → Column) :
    (mapAt l i f).length = l.length := by
  induction l generalizing i with
  | nil => rfl
  | cons c r ih =>
    cases i with
    | zero => rfl
    | succ i => simpa [mapAt] using ih i

lemma nRows_setNullCell (t : Table) (i j : ℕ) : nRows (setNullCell t i j) = nRows t := by
  rcases t with ⟨cols⟩
  cases cols with
  | nil => rfl
  | cons c r =>
    cases i with
    | zero => simp [setNullCell, mapAt, nRows]
    | succ i => rfl

lemma total_cells_setNullCell (t : Table) (i j : ℕ) :
    total_cells (setNullCell t i j) = total_cells t := by
  unfold total_cells
  rw [nRows_setNullCell]
  rcases t with ⟨cols⟩
  simp [setNullCell, length_mapAt]

lemma countNull_set_null (l : List Val) (j : ℕ) (v : Val)
    (hj : l[j]? = some v) (hv : v ≠ Val.null) :
    countNull (l.set j Val.null) = countNull l + 1 := by
  induction l generalizing j with
  | nil => simp at hj
  | cons a r ih =>
    cases j with
    | zero =>
      simp only [List.getElem?_cons_zero, Option.some.injEq] at hj
      subst hj
      simp [countNull, hv]
      omega
    | succ j =>
      simp only [List.getElem?_cons_succ] at hj
      simp only [List.set, countNull, ih j hj]
      omega

lemma null_cells_setNullCell (t : Table) (i j : ℕ) (c : Column) (v : Val)
    (hi : t.cols[i]? = some c) (hj : c.cells[j]? = some v) (hv : v ≠ Val.null) :
    null_cells (setNullCell t i j) = null_cells t + 1 := by
  rcases t with ⟨cols⟩
  simp only [setNullCell, null_cells]
  induction cols generalizing i with
  | nil => simp at hi
  | cons c0 r ih =>
    cases i with
    | zero =>
      simp only [List.getElem?_cons_zero, Option.some.injEq] at hi
      subst hi
      simp [mapAt, countNull_set_null c0.cells j v hj hv]
      omega
    | succ i =>
      simp only [List.getElem?_cons_succ] at hi
      simp only [mapAt, List.map_cons, List.sum_cons, ih i hi]
      omega

/-- C6: the completeness score equals
`(total cells − null cells) / total cells × 100`, is exactly `100` when
the table has no null cell, and replacing any single non-null cell by
null (all else fixed) never increases it. -/
theorem claimC6 (t : Table) (hc : t.cols ≠ []) (hr : 0 < nRows t) :
    completeness_score t
        = ((total_cells t : ℚ) - (null_cells t : ℚ)) / (total_cells t : ℚ) * 100
    ∧ (null_cells t = 0 → completeness_score t = 100)
    ∧ ∀ i j c v, t.cols[i]? = some c → c.cells[j]? = some v → v ≠ Val.null →
        completeness_score (setNullCell t i j) ≤ completeness_score t := by
  have hT : 0 < total_cells t := by
    have : 0 < t.cols.length := List.length_pos.mpr hc
    unfold total_cells
    exact Nat.mul_pos hr this
  have hTQ : (0 : ℚ) < (total_cells t : ℚ) := by exact_mod_cast hT
  refine ⟨rfl, ?_, ?_⟩
  · intro h0
    unfold completeness_score
    rw [h0]
    push_cast
    rw [sub_zero, div_self (ne_of_gt hTQ)]
    norm_num
  · intro i j c v hi hj hv
    unfold completeness_score
    rw [total_cells_setNullCell, null_cells_setNullCell t i j c v hi hj hv]
    have hnum : (total_cells t : ℚ) - ((null_cells t + 1 : ℕ) : ℚ)
        ≤ (total_cells t : ℚ) - (null_cells t : ℚ) := by
      push_cast
      linarith
    have hdiv := (div_le_div_iff_of_pos_right hTQ).mpr hnum
    exact mul_le_mul_of_nonneg_right hdiv (by norm_num)

/-- Concrete table for the C6 witness: two columns, two rows, no nulls. -/
def w6col : Column :=
  ⟨"amount", true, true, true, [Val.num 1, Val.num 2]⟩

def w6 : Table :=
  ⟨[w6col, ⟨"name", false, false, false, [Val.str "a", Val.str "b"]⟩]⟩

/-- Witness for C6 at a concrete table. -/
theorem claimC6_witness :
    completeness_score w6 = 100 ∧
    completeness_score (setNullCell w6 0 0) ≤ completeness_score w6 :=
  ⟨(claimC6 w6 (by decide) (by decide)).2.1 (by decide),
   (claimC6 w6 (by decide) (by decide)).2.2 0 0 w6col (Val.num 1) rfl rfl (by decide)⟩

/-- C7: the consistency score is exactly `100` iff the table has no two
exactly matching rows. -/
theorem claimC7 (t : Table) (hr : 0 < nRows t) :
    consistency_score t = 100 ↔ (rowsOf t).Nodup := by
  have hlen : (rowsOf t).length = nRows t := by
    simp [rowsOf]
  have hd : (rowsOf t).dedup.length ≤ nRows t := by
    rw [← hlen]
    exact (List.dedup_sublist _).length_le
  have hnQ : (0 : ℚ) < (nRows t : ℚ) := by exact_mod_cast hr
  have hcast : ((duplicate_rows t : ℕ) : ℚ) = (nRows t : ℚ) - ((rowsOf t).dedup.length : ℚ) := by
    unfold duplicate_rows
    push_cast [Nat.cast_sub hd]
    ring
  unfold consistency_score
  rw [hcast]
  have hsimp : (nRows t : ℚ) - ((nRows t : ℚ) - ((rowsOf t).dedup.length : ℚ))
      = ((rowsOf t).dedup.length : ℚ) := by ring
  rw [hsimp]
  constructor
  · intro h
    have h2 : ((rowsOf t).dedup.length : ℚ) / (nRows t : ℚ) = 1 := by
      have h100 : ((rowsOf t).dedup.length : ℚ) / (nRows t : ℚ) * 100 = 1 * 100 := by
        rw [h]; norm_num
      exact mul_right_cancel₀ (by norm_num) h100
    have h3 : ((rowsOf t).dedup.length : ℚ) = (nRows t : ℚ) :=
      (div_eq_one_iff_eq (ne_of_gt hnQ)).mp h2
    have h4 : (rowsOf t).dedup.length = nRows t := by exact_mod_cast h3
    exact List.dedup_eq_self.mp
      ((List.dedup_sublist _).eq_of_length (by rw [h4, hlen]))
  · intro h
    rw [List.dedup_eq_self.mpr h, hlen]
    field_simp

/-- Concrete table for the C7 witness: two distinct rows. -/
def w7 : Table :=
  ⟨[⟨"x", false, false, false, [Val.str "a", Val.str "b"]⟩]⟩

/-- Witness for C7 at a concrete table with no duplicate rows. -/
theorem claimC7_witness : consistency_score w7 = 100 :=
  (claimC7 w7 (by decide)).mpr (by decide)

/-- Concrete table whose completeness score is exactly 85: four columns,
five rows, three null cells, so `(20 - 3) / 20 * 100 = 85`. -/
def c5t : Table :=
  ⟨[⟨"a", true, true, true, [Val.num 1, Val.num 2, Val.num 3, Val.num 4, Val.null]⟩,
    ⟨"b", true, true, true, [Val.num 1, Val.num 2, Val.num 3, Val.num 4, Val.null]⟩,
    ⟨"c", true, true, true, [Val.num 1, Val.num 2, Val.num 3, Val.num 4, Val.null]⟩,
    ⟨"d", true, true, true, [Val.num 1, Val.num 2, Val.num 3, Val.num 4, Val.num 5]⟩]⟩

lemma c5t_score : completeness_score c5t = 85 := by
  have h1 : total_cells c5t = 20 := rfl
  have h2 : null_cells c5t = 3 := rfl
  unfold completeness_score
  rw [h1, h2]
  norm_num

/-- C5 counterexample: a table whose completeness score is exactly 85
falls into the missing-values issue branch, not the "good" strength
branch, because the source tests `elif completeness_score > 85` with a
strict inequality. -/
theorem claimC5_counter :
    completeness_score c5t = 85
    ∧ completeness_note c5t = CompletenessNote.missingValuesIssue
    ∧ completeness_note c5t ≠ CompletenessNote.good := by
  have hnote : completeness_note c5t = CompletenessNote.missingValuesIssue := by
    unfold completeness_note
    rw [c5t_score]
    norm_num
  exact ⟨c5t_score, hnote, by rw [hnote]; intro h; cases h⟩

/-- C5 (amended): completeness strictly greater than 95 yields the
"excellent" strength, completeness in the half-open range (85, 95]
yields the "good" strength, and completeness at or below 85 (in
particular exactly 85) yields the missing-values issue. -/
theorem claimC5_amended (t : Table) :
    (95 < completeness_score t → completeness_note t = CompletenessNote.excellent)
    ∧ (85 < completeness_score t → completeness_score t ≤ 95 →
        completeness_note t = CompletenessNote.good)
    ∧ (completeness_score t ≤ 85 → completeness_note t = CompletenessNote.missingValuesIssue) := by
  unfold completeness_note
  refine ⟨fun h1 => ?_, fun h1 h2 => ?_, fun h1 => ?_⟩
  · rw [if_pos h1]
  · rw [if_neg (by linarith), if_pos h1]
  · rw [if_neg (by linarith), if_neg (by linarith)]

/-- Concrete table with completeness score 90: two columns, five rows,
one null cell, so `(10 - 1) / 10 * 100 = 90`. -/
def w5 : Table :=
  ⟨[⟨"a", true, true, true, [Val.num 1, Val.num 2, Val.num 3, Val.num 4, Val.null]⟩,
    ⟨"b", true, true, true, [Val.num 1, Val.num 2, Val.num 3, Val.num 4, Val.num 5]⟩]⟩

lemma w5_score : completeness_score w5 = 90 := by
  have h1 : total_cells w5 = 10 := rfl
  have h2 : null_cells w5 = 1 := rfl
  unfold completeness_score
  rw [h1, h2]
  norm_num

/-- Witness for the amended C5 at a concrete table scoring 90. -/
theorem claimC5_amended_witness : completeness_note w5 = CompletenessNote.good :=
  (claimC5_amended w5).2.1 (by rw [w5_score]; norm_num) (by rw [w5_score]; norm_num)

/-! ### Column selections shared by steps 5 and 6 -/

/-- `data.select_dtypes(include=[np.number]).columns`. -/
def numericColsOf (t : Table) : List Column := t.cols.filter (fun c => c.isNumericDtype)

/-- The columns collected by the `pd.to_datetime(data[col].head())` try/except
loop (as in `_step_4_pattern_detection` and `_step_6_recommendations`). -/
def dateColsOf (t : Table) : List Column := t.cols.filter (fun c => c.headDate)

/-- `name in data.columns`. -/
def hasColumn (t : Table) (n : String) : Bool := t.cols.any (fun c => c.name == n)

/-- `data[n]` looked up by column name. -/
def findCol (t : Table) (n : String) : Option Column := t.cols.find? (fun c => c.name == n)

/-- ASCII lowercasing of one character, as `str.lower()` acts on the
identifier-like column names the pipeline inspects. -/
def lowerChar (c : Char) : Char := if c.isUpper then Char.ofNat (c.toNat + 32) else c

/-- `col.lower()` as a character list. -/
def lowerStr (s : String) : List Char := s.toList.map lowerChar

def startsWithL : List Char → List Char → Bool
  | [], _ => true
  | _ :: _, [] => false
  | a :: as, b :: bs => a == b && startsWithL as bs

/-- Substring occurrence on character lists (Python `word in text`). -/
def occursIn (w : List Char) : List Char → Bool
  | [] => w.isEmpty
  | b :: bs => startsWithL w (b :: bs) || occursIn w bs

/-- `word in col.lower()`. -/
def containsSub (s w : String) : Bool := occursIn w.toList (lowerStr s)

/-- `any(word in col.lower() for word in ['revenue','total','amount','price'])`. -/
def revenueKeyword (n : String) : Bool :=
  ["revenue", "total", "amount", "price"].any (fun w => containsSub n w)

/-- `revenue_cols` from `_step_5_business_intelligence`. -/
def revenue_cols (t : Table) : List Column :=
  (numericColsOf t).filter (fun c => revenueKeyword c.name)

/-- The non-null values of a column (`dropna()` view used by `nunique`
and by `groupby`, which both ignore NaN). -/
def nonNullVals (l : List Val) : List Val := l.filter (fun v => decide (v ≠ Val.null))

/-- `col.nunique()`: number of distinct non-null values. -/
def nuniqueOf (l : List Val) : ℕ := (nonNullVals l).dedup.length

/-! ### Step 6: strategic recommendations -/

inductive Priority where
  | low
  | medium
  | high
deriving DecidableEq, Repr

inductive RecCategory where
  | dataQuality
  | performanceMonitoring
  | marketExpansion
  | processAutomation
deriving DecidableEq, Repr

/-- One entry of the `recommendations` list built by
`_step_6_recommendations`: its category and priority (the free-text
`recommendation` and `impact` strings are constants per category). -/
structure Recommendation where
  category : RecCategory
  priority : Priority
deriving DecidableEq, Repr

def dataQualityRec : Recommendation := ⟨RecCategory.dataQuality, Priority.high⟩

def performanceMonitoringRec : Recommendation :=
  ⟨RecCategory.performanceMonitoring, Priority.medium⟩

def marketExpansionRec : Recommendation := ⟨RecCategory.marketExpansion, Priority.medium⟩

def processAutomationRec : Recommendation := ⟨RecCategory.processAutomation, Priority.low⟩

/-- `null_percentage = (data.isnull().sum().sum() / (len(data) * len(data.columns))) * 100`. -/
def null_percentage (t : Table) : ℚ := ((null_cells t : ℚ) / (total_cells t : ℚ)) * 100

/-- The recommendation list assembled by `_step_6_recommendations`:
a High "Data Quality" entry when the null ratio exceeds 10%, a Medium
"Performance Monitoring" entry when a numeric column exists and some
column's head parses as dates, a Medium "Market Expansion" entry when a
`customer_country` column exists, and always a final Low "Process
Automation" entry. -/
def step_6_recommendations (t : Table) : List Recommendation :=
  (if null_percentage t > 10 then [dataQualityRec] else [])
    ++ (if numericColsOf t ≠ [] ∧ dateColsOf t ≠ [] then [performanceMonitoringRec] else [])
    ++ (if hasColumn t "customer_country" then [marketExpansionRec] else [])
    ++ [processAutomationRec]

/-- C4: the recommendation list always ends with the constant Low
"Process Automation" entry, and contains the High "Data Quality" entry
iff the null-cell ratio exceeds 10%. -/
theorem claimC4 (t : Table) (hr : 0 < nRows t) (hc : t.cols ≠ []) :
    (step_6_recommendations t).getLast? = some processAutomationRec
    ∧ (dataQualityRec ∈ step_6_recommendations t ↔ 10 < null_percentage t) := by
  unfold step_6_recommendations
  constructor
  · split_ifs <;> rfl
  · split_ifs with h1 h2 h3 <;>
      simp_all [dataQualityRec, performanceMonitoringRec, marketExpansionRec,
        processAutomationRec]

/-- Concrete table for the C4 witness: one column, two rows, one null,
so half the cells are missing. -/
def w4 : Table := ⟨[⟨"amount", true, true, true, [Val.num 3, Val.null]⟩]⟩

lemma w4_pct : null_percentage w4 = 50 := by
  have h1 : null_cells w4 = 1 := rfl
  have h2 : total_cells w4 = 2 := rfl
  unfold null_percentage
  rw [h1, h2]
  norm_num

/-- Witness for C4 at a concrete table with 50% missing cells. -/
theorem claimC4_witness :
    (step_6_recommendations w4).getLast? = some processAutomationRec
    ∧ dataQualityRec ∈ step_6_recommendations w4 :=
  ⟨(claimC4 w4 (by decide) (by decide)).1,
   (claimC4 w4 (by decide) (by decide)).2.mpr (by rw [w4_pct]; norm_num)⟩

/-- Concrete table for the C3 counterexample: its only column's sampled
values parse as dates, but there is no numeric-dtype column. -/
def ct3 : Table := ⟨[⟨"event_date", false, true, true, [Val.str "2024-01-05"]⟩]⟩

/-- C3 counterexample: a table with a date-parsing column but no numeric
column receives no "Performance Monitoring" recommendation, because the
source only looks for date columns inside `if len(numeric_cols) > 0`. -/
theorem claimC3_counter :
    (ct3.cols.any (fun c => c.headDate)) = true
    ∧ performanceMonitoringRec ∉ step_6_recommendations ct3 := by
  refine ⟨rfl, ?_⟩
  have hpct : null_percentage ct3 = 0 := by
    have h1 : null_cells ct3 = 0 := rfl
    unfold null_percentage
    rw [h1]
    norm_num
  unfold step_6_recommendations
  rw [hpct]
  norm_num
  decide

/-- C3 (amended): a Medium "Performance Monitoring" recommendation is
emitted when some column's sampled values parse as dates AND the table
has at least one numeric-dtype column; a date column alone is not
sufficient. -/
theorem claimC3_amended (t : Table) (hd : dateColsOf t ≠ []) (hn : numericColsOf t ≠ []) :
    performanceMonitoringRec ∈ step_6_recommendations t := by
  unfold step_6_recommendations
  simp
  tauto

/-- Concrete table for the amended C3 witness: a numeric column whose
head parses as dates. -/
def w3t : Table := ⟨[⟨"quantity", true, true, true, [Val.num 7]⟩]⟩

/-- Witness for the amended C3 at a concrete table. -/
theorem claimC3_amended_witness : performanceMonitoringRec ∈ step_6_recommendations w3t :=
  claimC3_amended w3t (by decide) (by decide)

/-! ### Step 5: business-intelligence insights

The source builds `business_intel['insights']` by appending f-strings; the
embedding tracks which insight is appended by a tag per append site.  The
step has no exception handling: the modelled errors are the
`ZeroDivisionError` of `len(data) / unique_customers` when the customer
column has no non-null value, the `IndexError` of `revenue_cols[0]` in the
geographic block when no revenue-named numeric column exists, and the
`ValueError` of `.idxmax()` on an empty groupby when a grouping column is
entirely null. -/

inductive InsightTag where
  | totalRevenue
  | avgTransaction
  | highValueCount
  | uniqueCustomers
  | avgPerCustomer
  | topMarketVolume
  | topMarketRevenue
  | popularProduct
deriving DecidableEq, Repr

inductive PyError where
  | indexError
  | zeroDivisionError
  | valueError
deriving DecidableEq, Repr

/-- The three revenue insights, appended when a revenue-named numeric
column exists. -/
def revenueInsights (t : Table) : List InsightTag :=
  if revenue_cols t ≠ [] then
    [InsightTag.totalRevenue, InsightTag.avgTransaction, InsightTag.highValueCount]
  else []

/-- The customer block: chooses `customer_name` if present else
`customer_id`; `len(data) / unique_customers` raises `ZeroDivisionError`
when the chosen column has zero distinct non-null values. -/
def customerInsights (t : Table) : Except PyError (List InsightTag) :=
  match findCol t "customer_name" with
  | some c =>
      if nuniqueOf c.cells = 0 then Except.error PyError.zeroDivisionError
      else Except.ok [InsightTag.uniqueCustomers, InsightTag.avgPerCustomer]
  | none =>
      match findCol t "customer_id" with
      | some c =>
          if nuniqueOf c.cells = 0 then Except.error PyError.zeroDivisionError
          else Except.ok [InsightTag.uniqueCustomers, InsightTag.avgPerCustomer]
      | none => Except.ok []

/-- The geographic block: `groupby('customer_country').size().idxmax()`
raises `ValueError` when every country value is null (the groupby is
empty), and `revenue_cols[0]` raises `IndexError` when no revenue-named
numeric column exists. -/
def geographicInsights (t : Table) : Except PyError (List InsightTag) :=
  match findCol t "customer_country" with
  | none => Except.ok []
  | some c =>
      if nonNullVals c.cells = [] then Except.error PyError.valueError
      else if revenue_cols t = [] then Except.error PyError.indexError
      else Except.ok [InsightTag.topMarketVolume, InsightTag.topMarketRevenue]

/-- The product block: `groupby('product_name').size().idxmax()` raises
`ValueError` when every product value is null. -/
def productInsights (t : Table) : Except PyError (List InsightTag) :=
  match findCol t "product_name" with
  | none => Except.ok []
  | some c =>
      if nonNullVals c.cells = [] then Except.error PyError.valueError
      else Except.ok [InsightTag.popularProduct]

/-- `_step_5_business_intelligence`: the `insights` list it assembles,
or the exception it raises. -/
def step_5_business_intelligence (t : Table) : Except PyError (List InsightTag) := do
  let cp ← customerInsights t
  let gp ← geographicInsights t
  let pp ← productInsights t
  Except.ok (revenueInsights t ++ cp ++ gp ++ pp)

/-- Concrete table on which every insight category is eligible. -/
def ctC2 : Table :=
  ⟨[⟨"total_amount", true, true, true, [Val.num 100, Val.num 200]⟩,
    ⟨"customer_name", false, false, false, [Val.str "alice", Val.str "bob"]⟩,
    ⟨"customer_country", false, false, false, [Val.str "US", Val.str "DE"]⟩,
    ⟨"product_name", false, false, false, [Val.str "card", Val.str "loan"]⟩]⟩

/-- The eight insights produced on `ctC2`. -/
def ctC2full : List InsightTag :=
  [InsightTag.totalRevenue, InsightTag.avgTransaction, InsightTag.highValueCount,
   InsightTag.uniqueCustomers, InsightTag.avgPerCustomer,
   InsightTag.topMarketVolume, InsightTag.topMarketRevenue, InsightTag.popularProduct]

/-- C2 counterexample: with all four insight categories eligible the
step produces eight insights; no truncation to five exists anywhere in
`_step_5_business_intelligence` or in the code surfacing
`analysis_results['insights']`. -/
theorem claimC2_counter :
    step_5_business_intelligence ctC2 = Except.ok ctC2full
    ∧ ¬ ctC2full.length ≤ 5 := by
  exact ⟨rfl, by decide⟩

lemma revenueInsights_len (t : Table) : (revenueInsights t).length ≤ 3 := by
  unfold revenueInsights
  split_ifs <;> simp

lemma customerInsights_len (t : Table) (l : List InsightTag)
    (h : customerInsights t = Except.ok l) : l.length ≤ 2 := by
  unfold customerInsights at h
  rcases hf : findCol t "customer_name" with _ | c <;> rw [hf] at h <;> dsimp only at h
  · rcases hg : findCol t "customer_id" with _ | c <;> rw [hg] at h <;> dsimp only at h
    · cases h
      simp
    · split_ifs at h <;> cases h <;> simp
  · split_ifs at h <;> cases h <;> simp

lemma geographicInsights_len (t : Table) (l : List InsightTag)
    (h : geographicInsights t = Except.ok l) : l.length ≤ 2 := by
  unfold geographicInsights at h
  rcases hf : findCol t "customer_country" with _ | c <;> rw [hf] at h <;> dsimp only at h
  · cases h
    simp
  · split_ifs at h <;> cases h <;> simp

lemma productInsights_len (t : Table) (l : List InsightTag)
    (h : productInsights t = Except.ok l) : l.length ≤ 1 := by
  unfold productInsights at h
  rcases hf : findCol t "product_name" with _ | c <;> rw [hf] at h <;> dsimp only at h
  · cases h
    simp
  · split_ifs at h <;> cases h <;> simp

/-- C2 (amended): the insights list produced by the
business-intelligence step, when the step does not raise, has length at
most 8 (three revenue, two customer, two geographic and one product
insight); there is no truncation, so the stated cap of 5 is exceeded
whenever more than five insights are eligible. -/
theorem claimC2_amended (t : Table) (l : List InsightTag)
    (h : step_5_business_intelligence t = Except.ok l) : l.length ≤ 8 := by
  unfold step_5_business_intelligence at h
  rcases hc : customerInsights t with e | cp <;> rw [hc] at h
  · cases h
  rcases hg : geographicInsights t with e | gp <;> rw [hg] at h
  · cases h
  rcases hp : productInsights t with e | pp <;> rw [hp] at h
  · cases h
  have hl : l = revenueInsights t ++ cp ++ gp ++ pp := by
    cases h
    rfl
  subst hl
  have h1 := revenueInsights_len t
  have h2 := customerInsights_len t cp hc
  have h3 := geographicInsights_len t gp hg
  have h4 := productInsights_len t pp hp
  simp only [List.length_append]
  omega

/-- Witness for the amended C2 at the all-categories table. -/
theorem claimC2_amended_witness : ctC2full.length ≤ 8 :=
  claimC2_amended ctC2 ctC2full rfl

/-! ### The six-step orchestrator

`analyze_data_step_by_step` runs the six stages in order with no
exception handling; the embedding returns the raised error when a stage
raises.  Stage payloads beyond the claims (titles, detail dicts) are
carried by the score/insight/recommendation functions above; each step
record keeps its `step_number`. -/

structure Step where
  stepNumber : ℕ
deriving DecidableEq, Repr

structure Report where
  steps : List Step
  insights : List InsightTag
  recommendations : List Recommendation
deriving DecidableEq, Repr

/-- Step 1 divides by `len(data)` for each column, so it raises
`ZeroDivisionError` when columns exist but no rows do; otherwise it
completes. -/
def step_1_data_overview (t : Table) : Except PyError Step :=
  if t.cols ≠ [] ∧ nRows t = 0 then Except.error PyError.zeroDivisionError
  else Except.ok ⟨1⟩

/-- Step 2 divides by `total_cells` (and by `len(data)`), raising
`ZeroDivisionError` when the table has no cells; its score payloads are
`completeness_score`, `consistency_score` and `completeness_note`. -/
def step_2_data_quality (t : Table) : Except PyError Step :=
  if total_cells t = 0 then Except.error PyError.zeroDivisionError
  else Except.ok ⟨2⟩

/-- Step 3 guards every computation behind `len(numeric_cols) > 0` and
uses only total float operations, so it never raises; its
strong-correlation payload is embedded separately below. -/
def step_3_statistical_analysis (t : Table) : Except PyError Step :=
  Except.ok ⟨3⟩

/-- Step 4: when a head-parsed date column and a numeric column both
exist, `pd.to_datetime` runs on the whole first date column outside any
try/except, raising if some value beyond the head sample fails to
parse; all remaining arithmetic is float arithmetic and cannot raise. -/
def step_4_pattern_detection (t : Table) : Except PyError Step :=
  match dateColsOf t with
  | [] => Except.ok ⟨4⟩
  | d :: _ =>
      if numericColsOf t = [] then Except.ok ⟨4⟩
      else if d.fullDate then Except.ok ⟨4⟩
      else Except.error PyError.valueError

/-- `analyze_data_step_by_step`: the six stages in fixed order, the
fifth and sixth also surfacing the top-level `insights` and
`recommendations`.  Step 6 divides by `total_cells` before building its
list. -/
def analyze_data_step_by_step (t : Table) : Except PyError Report := do
  let s1 ← step_1_data_overview t
  let s2 ← step_2_data_quality t
  let s3 ← step_3_statistical_analysis t
  let s4 ← step_4_pattern_detection t
  let ins ← step_5_business_intelligence t
  let recs ← (if total_cells t = 0 then Except.error PyError.zeroDivisionError
              else Except.ok (step_6_recommendations t))
  Except.ok (Report.mk [s1, s2, s3, s4, Step.mk 5, Step.mk 6] ins recs)

/-- Concrete table for the C1 counterexample: a `customer_country`
column with a non-null value and no revenue-named numeric column. -/
def ctC1 : Table := ⟨[⟨"customer_country", false, false, false, [Val.str "US"]⟩]⟩

/-- C1 counterexample: on a one-row table with a `customer_country`
column but no revenue-named numeric column, the analysis raises
`IndexError` at `revenue_cols[0]` in the geographic block of step 5
instead of returning a six-step report. -/
theorem claimC1_counter :
    hasColumn ctC1 "customer_country" = true
    ∧ revenue_cols ctC1 = []
    ∧ analyze_data_step_by_step ctC1 = Except.error PyError.indexError :=
  ⟨rfl, rfl, rfl⟩

lemma except_bind_ok {α β : Type} (x : Except PyError α) (f : α → Except PyError β) (b : β)
    (h : (x >>= f) = Except.ok b) : ∃ a, x = Except.ok a ∧ f a = Except.ok b := by
  cases x with
  | error e => simp [Bind.bind, Except.bind] at h
  | ok a => exact ⟨a, rfl, h⟩

lemma step_1_ok (t : Table) (s : Step) (h : step_1_data_overview t = Except.ok s) :
    s = Step.mk 1 := by
  unfold step_1_data_overview at h
  split_ifs at h <;> cases h <;> rfl

lemma step_2_ok (t : Table) (s : Step) (h : step_2_data_quality t = Except.ok s) :
    s = Step.mk 2 := by
  unfold step_2_data_quality at h
  split_ifs at h <;> cases h <;> rfl

lemma step_3_ok (t : Table) (s : Step) (h : step_3_statistical_analysis t = Except.ok s) :
    s = Step.mk 3 := by
  cases h
  rfl

lemma step_4_ok (t : Table) (s : Step) (h : step_4_pattern_detection t = Except.ok s) :
    s = Step.mk 4 := by
  unfold step_4_pattern_detection at h
  rcases hd : dateColsOf t with _ | ⟨d, rest⟩ <;> rw [hd] at h <;> dsimp only at h
  · cases h
    rfl
  · split_ifs at h <;> cases h <;> rfl

/-- No raise in step 4: whenever a head-parsed date column and a numeric
column coexist, the whole first date column parses. -/
def step4Safe (t : Table) : Prop :=
  ∀ d, (dateColsOf t).head? = some d → numericColsOf t ≠ [] → d.fullDate = true

/-- No `ZeroDivisionError` in the customer block: any customer column
has at least one distinct non-null value. -/
def customerSafe (t : Table) : Prop :=
  (∀ c, findCol t "customer_name" = some c → nuniqueOf c.cells ≠ 0)
  ∧ (∀ c, findCol t "customer_id" = some c → nuniqueOf c.cells ≠ 0)

/-- No raise in the geographic block: any `customer_country` column has
a non-null value and a revenue-named numeric column exists. -/
def geoSafe (t : Table) : Prop :=
  ∀ c, findCol t "customer_country" = some c →
    nonNullVals c.cells ≠ [] ∧ revenue_cols t ≠ []

/-- No raise in the product block: any `product_name` column has a
non-null value. -/
def productSafe (t : Table) : Prop :=
  ∀ c, findCol t "product_name" = some c → nonNullVals c.cells ≠ []

lemma customerInsights_no_error (t : Table) (h : customerSafe t) :
    ∃ l, customerInsights t = Except.ok l := by
  unfold customerInsights
  rcases hf : findCol t "customer_name" with _ | c
  · rcases hg : findCol t "customer_id" with _ | c
    · exact ⟨[], rfl⟩
    · dsimp only
      rw [if_neg (h.2 c hg)]
      exact ⟨_, rfl⟩
  · dsimp only
    rw [if_neg (h.1 c hf)]
    exact ⟨_, rfl⟩

lemma geographicInsights_no_error (t : Table) (h : geoSafe t) :
    ∃ l, geographicInsights t = Except.ok l := by
  unfold geographicInsights
  rcases hf : findCol t "customer_country" with _ | c
  · exact ⟨[], rfl⟩
  · dsimp only
    rw [if_neg (h c hf).1, if_neg (h c hf).2]
    exact ⟨_, rfl⟩

lemma productInsights_no_error (t : Table) (h : productSafe t) :
    ∃ l, productInsights t = Except.ok l := by
  unfold productInsights
  rcases hf : findCol t "product_name" with _ | c
  · exact ⟨[], rfl⟩
  · dsimp only
    rw [if_neg (h c hf)]
    exact ⟨_, rfl⟩

/-- C1 (amended): whenever `analyze_data_step_by_step` returns a report,
that report has exactly six steps numbered 1,2,3,4,5,6 in order; and on
a table with at least one row and one column it does return a report
provided no step raises, i.e. provided the first date column fully
parses when a numeric column exists, every customer column has a
distinct non-null value, any `customer_country` column is non-null and
accompanied by a revenue-named numeric column, and any `product_name`
column is non-null.  (The original claim's "never raises" fails: see the
counterexample, where step 5 raises `IndexError`.) -/
theorem claimC1_amended (t : Table) :
    (∀ r, analyze_data_step_by_step t = Except.ok r →
        r.steps.map Step.stepNumber = [1, 2, 3, 4, 5, 6])
    ∧ (0 < nRows t → t.cols ≠ [] → step4Safe t → customerSafe t → geoSafe t →
        productSafe t → ∃ r, analyze_data_step_by_step t = Except.ok r) := by
  constructor
  · intro r h
    unfold analyze_data_step_by_step at h
    obtain ⟨s1, h1, h⟩ := except_bind_ok _ _ _ h
    obtain ⟨s2, h2, h⟩ := except_bind_ok _ _ _ h
    obtain ⟨s3, h3, h⟩ := except_bind_ok _ _ _ h
    obtain ⟨s4, h4, h⟩ := except_bind_ok _ _ _ h
    obtain ⟨ins, h5, h⟩ := except_bind_ok _ _ _ h
    obtain ⟨recs, h6, h⟩ := except_bind_ok _ _ _ h
    cases h
    rw [step_1_ok t s1 h1, step_2_ok t s2 h2, step_3_ok t s3 h3, step_4_ok t s4 h4]
    rfl
  · intro hr hc h4safe hcust hgeo hprod
    have hT : total_cells t ≠ 0 := by
      have hlen : 0 < t.cols.length := List.length_pos.mpr hc
      unfold total_cells
      exact Nat.mul_ne_zero (by omega) (by omega)
    have h1 : step_1_data_overview t = Except.ok (Step.mk 1) := by
      unfold step_1_data_overview
      rw [if_neg]
      intro hand
      exact absurd hand.2 (by omega)
    have h2 : step_2_data_quality t = Except.ok (Step.mk 2) := by
      unfold step_2_data_quality
      rw [if_neg hT]
    have h4 : step_4_pattern_detection t = Except.ok (Step.mk 4) := by
      unfold step_4_pattern_detection
      rcases hd : dateColsOf t with _ | ⟨d, rest⟩
    -- no date columns
      · rfl
      · dsimp only
        by_cases hn : numericColsOf t = []
        · rw [if_pos hn]
        · rw [if_neg hn, if_pos (h4safe d (by rw [hd]; rfl) hn)]
    obtain ⟨cp, hcp⟩ := customerInsights_no_error t hcust
    obtain ⟨gp, hgp⟩ := geographicInsights_no_error t hgeo
    obtain ⟨pp, hpp⟩ := productInsights_no_error t hprod
    have h5 : step_5_business_intelligence t
        = Except.ok (revenueInsights t ++ cp ++ gp ++ pp) := by
      unfold step_5_business_intelligence
      rw [hcp, hgp, hpp]
      rfl
    have h6 : (if total_cells t = 0 then Except.error PyError.zeroDivisionError
        else Except.ok (step_6_recommendations t)) = Except.ok (step_6_recommendations t) :=
      if_neg hT
    refine ⟨Report.mk [Step.mk 1, Step.mk 2, Step.mk 3, Step.mk 4, Step.mk 5, Step.mk 6]
      (revenueInsights t ++ cp ++ gp ++ pp) (step_6_recommendations t), ?_⟩
    unfold analyze_data_step_by_step
    simp only [h1, h2, h4, h5, h6, step_3_statistical_analysis, Bind.bind, Except.bind]

/-- Concrete table for the C1 witness: one numeric one-row column whose
values parse as dates (as integers do). -/
def w1 : Table := ⟨[⟨"value", true, true, true, [Val.num 5]⟩]⟩

lemma w1_pct : null_percentage w1 = 0 := by
  have h1 : null_cells w1 = 0 := rfl
  unfold null_percentage
  rw [h1]
  norm_num

lemma w1_analyze : analyze_data_step_by_step w1 = Except.ok
    (Report.mk [Step.mk 1, Step.mk 2, Step.mk 3, Step.mk 4, Step.mk 5, Step.mk 6] []
      [performanceMonitoringRec, processAutomationRec]) := by
  have h6 : step_6_recommendations w1 = [performanceMonitoringRec, processAutomationRec] := by
    unfold step_6_recommendations
    rw [w1_pct]
    rw [if_neg (by norm_num), if_pos (by decide : numericColsOf w1 ≠ [] ∧ dateColsOf w1 ≠ []),
      if_neg (by decide : ¬ hasColumn w1 "customer_country" = true)]
    rfl
  have hchain : analyze_data_step_by_step w1 = Except.ok
      (Report.mk [Step.mk 1, Step.mk 2, Step.mk 3, Step.mk 4, Step.mk 5, Step.mk 6] []
        (step_6_recommendations w1)) := rfl
  rw [hchain, h6]

/-- Witness for the amended C1: the report returned on `w1` has steps
numbered 1..6 in order. -/
theorem claimC1_amended_witness :
    (Report.mk [Step.mk 1, Step.mk 2, Step.mk 3, Step.mk 4, Step.mk 5, Step.mk 6] []
        [performanceMonitoringRec, processAutomationRec]).steps.map Step.stepNumber
      = [1, 2, 3, 4, 5, 6] :=
  (claimC1_amended w1).1 _ w1_analyze

/-! ### Step 3 payload: strong correlations

Numeric columns are lists of optional rationals (`none` is NaN).
`DataFrame.corr` computes each Pearson coefficient over the
pairwise-complete observations of the two columns and yields NaN when
either has no positive variance there; `abs(nan) > 0.7` is false, so
such pairs are never collected.  Over exact rationals,
`|r| > 0.7` with `r = covNum / √(varNum·varNum)` is equivalent to the
polynomial condition `49·vx·vy < 100·cov²` used below, proved in
`claimC8`. -/

/-- Pairwise-complete observations of two columns (rows where both
values are present), as pandas correlation uses. -/
def paired : List (Option ℚ) → List (Option ℚ) → List (ℚ × ℚ)
  | some a :: xs, some b :: ys => (a, b) :: paired xs ys
  | _ :: xs, _ :: ys => paired xs ys
  | _, _ => []

/-- `n·Σx² − (Σx)²`: `n²` times the variance of the sample; zero exactly
for empty or constant samples. -/
def varNum (l : List ℚ) : ℚ :=
  (l.length : ℚ) * (l.map (fun x => x ^ 2)).sum - l.sum ^ 2

/-- `n·Σxy − Σx·Σy`: `n²` times the covariance of the paired sample. -/
def covNum (ps : List (ℚ × ℚ)) : ℚ :=
  (ps.length : ℚ) * (ps.map (fun p => p.1 * p.2)).sum
    - (ps.map Prod.fst).sum * (ps.map Prod.snd).sum

/-- `abs(corr_matrix.iloc[i, j]) > 0.7`, with comparisons against NaN
false: both pairwise variances are positive and `r² > 0.49`. -/
def strongB (xs ys : List (Option ℚ)) : Bool :=
  let ps := paired xs ys
  let vx := varNum (ps.map Prod.fst)
  let vy := varNum (ps.map Prod.snd)
  decide (0 < vx) && decide (0 < vy) && decide (49 * (vx * vy) < 100 * covNum ps ^ 2)

/-- The `strong_correlations` nested loop of
`_step_3_statistical_analysis` (`for i` / `for j in range(i+1, ...)`),
collecting the index pairs of reported strong correlations. -/
def strong_correlations (cols : List (List (Option ℚ))) : List (ℕ × ℕ) :=
  (List.range cols.length).flatMap (fun i =>
    (List.range cols.length).filterMap (fun j =>
      if i < j ∧ strongB (cols.getD i []) (cols.getD j []) then some (i, j) else none))

lemma mem_strong_correlations (cols : List (List (Option ℚ))) (i j : ℕ) :
    (i, j) ∈ strong_correlations cols ↔
      i < j ∧ j < cols.length ∧ strongB (cols.getD i []) (cols.getD j []) = true := by
  unfold strong_correlations
  simp only [List.mem_flatMap, List.mem_filterMap, List.mem_range]
  constructor
  · rintro ⟨a, ha, b, hb, hif⟩
    by_cases hcond : a < b ∧ strongB (cols.getD a []) (cols.getD b []) = true
    · rw [if_pos hcond] at hif
      obtain ⟨hai, hbj⟩ : a = i ∧ b = j := by
        have := Option.some.inj hif
        exact ⟨congrArg Prod.fst this, congrArg Prod.snd this⟩
      subst hai
      subst hbj
      exact ⟨hcond.1, hb, hcond.2⟩
    · rw [if_neg hcond] at hif
      cases hif
  · rintro ⟨hij, hjlen, hs⟩
    exact ⟨i, lt_trans hij hjlen, j, hjlen, by rw [if_pos ⟨hij, hs⟩]⟩

lemma mem_paired_fst (xs ys : List (Option ℚ)) (a b : ℚ)
    (h : (a, b) ∈ paired xs ys) : some a ∈ xs := by
  induction xs generalizing ys with
  | nil => simp [paired] at h
  | cons x xs ih =>
    cases ys with
    | nil =>
      cases x <;> simp [paired] at h
    | cons y ys =>
      cases x with
      | none =>
        cases y <;>
          exact List.mem_cons_of_mem _ (ih ys (by simpa [paired] using h))
      | some a0 =>
        cases y with
        | none => exact List.mem_cons_of_mem _ (ih ys (by simpa [paired] using h))
        | some b0 =>
          rw [paired] at h
          rcases List.mem_cons.mp h with heq | htail
          · obtain ⟨ha, _⟩ := Prod.mk.inj heq
            subst ha
            exact List.mem_cons_self _ _
          · exact List.mem_cons_of_mem _ (ih ys htail)

lemma mem_paired_snd (xs ys : List (Option ℚ)) (a b : ℚ)
    (h : (a, b) ∈ paired xs ys) : some b ∈ ys := by
  induction xs generalizing ys with
  | nil => simp [paired] at h
  | cons x xs ih =>
    cases ys with
    | nil =>
      cases x <;> simp [paired] at h
    | cons y ys =>
      cases x with
      | none =>
        cases y <;>
          exact List.mem_cons_of_mem _ (ih ys (by simpa [paired] using h))
      | some a0 =>
        cases y with
        | none => exact List.mem_cons_of_mem _ (ih ys (by simpa [paired] using h))
        | some b0 =>
          rw [paired] at h
          rcases List.mem_cons.mp h with heq | htail
          · obtain ⟨_, hb⟩ := Prod.mk.inj heq
            subst hb
            exact List.mem_cons_self _ _
          · exact List.mem_cons_of_mem _ (ih ys htail)

lemma varNum_of_const (l : List ℚ) (h : ∀ a ∈ l, ∀ b ∈ l, a = b) : varNum l = 0 := by
  cases hl : l with
  | nil => simp [varNum]
  | cons x r =>
    subst hl
    have hall : ∀ a ∈ x :: r, a = x := fun a ha => h a ha x (List.mem_cons_self x r)
    have h1 : (x :: r).sum = ((x :: r).length : ℚ) * x := by
      rw [List.sum_eq_card_nsmul (x :: r) x hall]
      simp [nsmul_eq_mul]
    have h2 : ((x :: r).map (fun y => y ^ 2)).sum = ((x :: r).length : ℚ) * x ^ 2 := by
      rw [List.sum_eq_card_nsmul ((x :: r).map (fun y => y ^ 2)) (x ^ 2) ?_]
      · simp [nsmul_eq_mul]
      · intro a ha
        obtain ⟨b, hb, hba⟩ := List.mem_map.mp ha
        rw [← hba, hall b hb]
    unfold varNum
    rw [h1, h2]
    ring

lemma strongB_false_left (xs ys : List (Option ℚ))
    (h : ∀ a b : ℚ, some a ∈ xs → some b ∈ xs → a = b) : strongB xs ys = false := by
  have hv : varNum ((paired xs ys).map Prod.fst) = 0 := by
    apply varNum_of_const
    intro a ha b hb
    obtain ⟨pa, hpa, hpa2⟩ := List.mem_map.mp ha
    obtain ⟨pb, hpb, hpb2⟩ := List.mem_map.mp hb
    have h1 : some pa.1 ∈ xs := mem_paired_fst xs ys pa.1 pa.2 (by simpa using hpa)
    have h2 : some pb.1 ∈ xs := mem_paired_fst xs ys pb.1 pb.2 (by simpa using hpb)
    rw [← hpa2, ← hpb2]
    exact h pa.1 pb.1 h1 h2
  unfold strongB
  simp [hv]

lemma strongB_false_right (xs ys : List (Option ℚ))
    (h : ∀ a b : ℚ, some a ∈ ys → some b ∈ ys → a = b) : strongB xs ys = false := by
  have hv : varNum ((paired xs ys).map Prod.snd) = 0 := by
    apply varNum_of_const
    intro a ha b hb
    obtain ⟨pa, hpa, hpa2⟩ := List.mem_map.mp ha
    obtain ⟨pb, hpb, hpb2⟩ := List.mem_map.mp hb
    have h1 : some pa.2 ∈ ys := mem_paired_snd xs ys pa.1 pa.2 (by simpa using hpa)
    have h2 : some pb.2 ∈ ys := mem_paired_snd xs ys pb.1 pb.2 (by simpa using hpb)
    rw [← hpa2, ← hpb2]
    exact h pa.2 pb.2 h1 h2
  unfold strongB
  simp [hv]

lemma pearson_abs_iff (c v : ℝ) (hv : 0 < v) :
    49 * v < 100 * c ^ 2 ↔ 7 / 10 < |c / Real.sqrt v| := by
  have hs : 0 < Real.sqrt v := Real.sqrt_pos.mpr hv
  have hsv : Real.sqrt v * Real.sqrt v = v := Real.mul_self_sqrt hv.le
  rw [abs_div, abs_of_pos hs, lt_div_iff₀ hs]
  constructor
  · intro h
    have := (mul_self_lt_mul_self_iff (by positivity : (0:ℝ) ≤ 7 / 10 * Real.sqrt v)
      (abs_nonneg c)).mpr ?_
    · exact this
    · rw [abs_mul_abs_self]
      nlinarith
  · intro h
    have h2 := (mul_self_lt_mul_self_iff (by positivity : (0:ℝ) ≤ 7 / 10 * Real.sqrt v)
      (abs_nonneg c)).mp h
    rw [abs_mul_abs_self] at h2
    nlinarith

/-- C8: the strong-correlations list contains exactly the upper-triangle
pairs `i < j` of numeric columns whose Pearson coefficient over the
pairwise-complete observations has both variances positive and absolute
value above 0.7; self-pairs are never reported, and a pair involving a
constant or all-NaN column is never reported (the computation being
total, it cannot crash). -/
theorem claimC8 (cols : List (List (Option ℚ))) (i j : ℕ) :
    ((i, j) ∈ strong_correlations cols ↔
        i < j ∧ j < cols.length ∧
          0 < varNum ((paired (cols.getD i []) (cols.getD j [])).map Prod.fst) ∧
          0 < varNum ((paired (cols.getD i []) (cols.getD j [])).map Prod.snd) ∧
          7 / 10 <
            |((covNum (paired (cols.getD i []) (cols.getD j [])) : ℚ) : ℝ) /
              Real.sqrt
                (((varNum ((paired (cols.getD i []) (cols.getD j [])).map Prod.fst) : ℚ) : ℝ) *
                 ((varNum ((paired (cols.getD i []) (cols.getD j [])).map Prod.snd) : ℚ) : ℝ))|)
    ∧ (i, i) ∉ strong_correlations cols
    ∧ ((∀ a b : ℚ, some a ∈ cols.getD i [] → some b ∈ cols.getD i [] → a = b) →
        (i, j) ∉ strong_correlations cols ∧ (j, i) ∉ strong_correlations cols) := by
  refine ⟨?_, ?_, ?_⟩
  · rw [mem_strong_correlations]
    have hb : strongB (cols.getD i []) (cols.getD j []) = true ↔
        (0 < varNum ((paired (cols.getD i []) (cols.getD j [])).map Prod.fst) ∧
         0 < varNum ((paired (cols.getD i []) (cols.getD j [])).map Prod.snd)) ∧
        49 * (varNum ((paired (cols.getD i []) (cols.getD j [])).map Prod.fst) *
              varNum ((paired (cols.getD i []) (cols.getD j [])).map Prod.snd)) <
          100 * covNum (paired (cols.getD i []) (cols.getD j [])) ^ 2 := by
      unfold strongB
      simp [Bool.and_eq_true, decide_eq_true_eq, and_assoc]
    constructor
    · rintro ⟨hij, hjlen, hs⟩
      obtain ⟨⟨hvx, hvy⟩, hineq⟩ := hb.mp hs
      refine ⟨hij, hjlen, hvx, hvy, ?_⟩
      have hvpos : (0 : ℝ) <
          ((varNum ((paired (cols.getD i []) (cols.getD j [])).map Prod.fst) : ℚ) : ℝ) *
          ((varNum ((paired (cols.getD i []) (cols.getD j [])).map Prod.snd) : ℚ) : ℝ) := by
        have hx : (0 : ℝ) < ((varNum ((paired (cols.getD i []) (cols.getD j [])).map Prod.fst) : ℚ) : ℝ) := by
          exact_mod_cast hvx
        have hy : (0 : ℝ) < ((varNum ((paired (cols.getD i []) (cols.getD j [])).map Prod.snd) : ℚ) : ℝ) := by
          exact_mod_cast hvy
        positivity
      refine (pearson_abs_iff _ _ hvpos).mp ?_
      push_cast
      exact_mod_cast hineq
    · rintro ⟨hij, hjlen, hvx, hvy, habs⟩
      refine ⟨hij, hjlen, hb.mpr ⟨⟨hvx, hvy⟩, ?_⟩⟩
      have hvpos : (0 : ℝ) <
          ((varNum ((paired (cols.getD i []) (cols.getD j [])).map Prod.fst) : ℚ) : ℝ) *
          ((varNum ((paired (cols.getD i []) (cols.getD j [])).map Prod.snd) : ℚ) : ℝ) := by
        have hx : (0 : ℝ) < ((varNum ((paired (cols.getD i []) (cols.getD j [])).map Prod.fst) : ℚ) : ℝ) := by
          exact_mod_cast hvx
        have hy : (0 : ℝ) < ((varNum ((paired (cols.getD i []) (cols.getD j [])).map Prod.snd) : ℚ) : ℝ) := by
          exact_mod_cast hvy
        positivity
      have := (pearson_abs_iff _ _ hvpos).mpr habs
      exact_mod_cast this
  · intro hmem
    exact absurd ((mem_strong_correlations cols i i).mp hmem).1 (lt_irrefl i)
  · intro hconst
    constructor
    · intro hmem
      have hs := ((mem_strong_correlations cols i j).mp hmem).2.2
      rw [strongB_false_left _ _ hconst] at hs
      cases hs
    · intro hmem
      have hs := ((mem_strong_correlations cols j i).mp hmem).2.2
      rw [strongB_false_right _ _ hconst] at hs
      cases hs

/-- Concrete pair of perfectly correlated columns for the C8 witness. -/
def w8cols : List (List (Option ℚ)) :=
  [[some 1, some 2, some 3], [some 2, some 4, some 6]]

/-- Witness for C8: on two perfectly correlated three-row columns, pair
(0, 1) is reported, and the theorem yields the positive-variance and
`|r| > 0.7` facts for it. -/
theorem claimC8_witness :
    0 < 1 ∧ 1 < w8cols.length ∧
      0 < varNum ((paired (w8cols.getD 0 []) (w8cols.getD 1 [])).map Prod.fst) ∧
      0 < varNum ((paired (w8cols.getD 0 []) (w8cols.getD 1 [])).map Prod.snd) ∧
      7 / 10 <
        |((covNum (paired (w8cols.getD 0 []) (w8cols.getD 1 [])) : ℚ) : ℝ) /
          Real.sqrt
            (((varNum ((paired (w8cols.getD 0 []) (w8cols.getD 1 [])).map Prod.fst) : ℚ) : ℝ) *
             ((varNum ((paired (w8cols.getD 0 []) (w8cols.getD 1 [])).map Prod.snd) : ℚ) : ℝ))| :=
  (claimC8 w8cols 0 1).1.mp (by
    rw [mem_strong_correlations]
    refine ⟨by norm_num, by norm_num [w8cols], ?_⟩
    unfold strongB
    norm_num [w8cols, paired, varNum, covNum])

/-! ### Step 4 payload: seasonality detection

The seasonality block of `_step_4_pattern_detection` works on the rows
of the prepared (date, value) pair: dates are reduced to their calendar
year and month (all the block consumes via `to_period('M')` and
`dt.month`).  `seasonal_strength = std/mean` of the per-month-of-year
means uses the pandas sample standard deviation (ddof = 1), which is
NaN for a single group; float semantics make the `> 0.1` comparison
false for NaN and negative strengths, and true for the `+inf` arising
from a positive deviation over a zero mean. -/

structure YM where
  y : ℕ
  m : ℕ
deriving DecidableEq, Repr

/-- A prepared (date, value) series: each row's year-month and numeric
value, in date order. -/
abbrev Series := List (YM × ℚ)

/-- `len(monthly_data)`: the number of distinct year-month buckets. -/
def monthlyBucketCount (s : Series) : ℕ := ((s.map Prod.fst).dedup).length

/-- The month-of-year keys present, in the ascending order `groupby`
yields. -/
def monthsPresent (s : Series) : List ℕ :=
  ((List.range 12).map (fun k => k + 1)).filter (fun m => s.any (fun p => p.1.m == m))

/-- `groupby('month_num')[value_col].mean()` at one month key. -/
def monthMean (s : Series) (m : ℕ) : ℚ :=
  ((s.filter (fun p => p.1.m == m)).map Prod.snd).sum
    / (((s.filter (fun p => p.1.m == m)).map Prod.snd).length : ℚ)

/-- `seasonal_pattern`: the per-month-of-year mean series. -/
def seasonal_pattern (s : Series) : List (ℕ × ℚ) :=
  (monthsPresent s).map (fun m => (m, monthMean s m))

/-- Mean of the monthly means (`seasonal_pattern.mean()`). -/
def patternMean (s : Series) : ℚ :=
  ((seasonal_pattern s).map Prod.snd).sum / ((seasonal_pattern s).length : ℚ)

/-- Sum of squared deviations of the monthly means from their mean
(the numerator of the ddof = 1 variance in `seasonal_pattern.std()`). -/
def patternSS (s : Series) : ℚ :=
  ((seasonal_pattern s).map (fun p => (p.2 - patternMean s) ^ 2)).sum

/-- `seasonal_strength > 0.1` under float semantics (see the section
comment): at least two month groups, and either a positive mean with
`std² > mean²/100`, or a zero mean with positive deviations. -/
def strengthExceeds (s : Series) : Bool :=
  decide (2 ≤ (seasonal_pattern s).length) &&
    ((decide (0 < patternMean s) &&
        decide ((((seasonal_pattern s).length : ℚ) - 1) * patternMean s ^ 2
          < 100 * patternSS s))
      || (decide (patternMean s = 0) && decide (0 < patternSS s)))

/-- The emitted seasonality record: `peak_month = idxmax`,
`low_month = idxmin` of the monthly means (the float `strength` field is
not modelled). -/
structure SeasonalRec where
  peak_month : ℕ
  low_month : ℕ
deriving DecidableEq, Repr

def idxmaxFold (best : ℕ × ℚ) : List (ℕ × ℚ) → ℕ × ℚ
  | [] => best
  | p :: r => idxmaxFold (if best.2 < p.2 then p else best) r

def idxminFold (best : ℕ × ℚ) : List (ℕ × ℚ) → ℕ × ℚ
  | [] => best
  | p :: r => idxminFold (if p.2 < best.2 then p else best) r

/-- `Series.idxmax()`: the first key attaining the maximum value. -/
def idxmaxOf (l : List (ℕ × ℚ)) : ℕ :=
  match l with
  | [] => 0
  | p :: r => (idxmaxFold p r).1

/-- `Series.idxmin()`: the first key attaining the minimum value. -/
def idxminOf (l : List (ℕ × ℚ)) : ℕ :=
  match l with
  | [] => 0
  | p :: r => (idxminFold p r).1

/-- Lines 332-344 of `step_by_step_analytics.py`: emit a seasonality
record iff at least 12 monthly buckets exist and the strength signal
exceeds 0.1. -/
def seasonalRecord (s : Series) : Option SeasonalRec :=
  if 12 ≤ monthlyBucketCount s then
    if strengthExceeds s then
      some ⟨idxmaxOf (seasonal_pattern s), idxminOf (seasonal_pattern s)⟩
    else none
  else none

lemma idxmaxFold_mem (p : ℕ × ℚ) (r : List (ℕ × ℚ)) : idxmaxFold p r ∈ p :: r := by
  induction r generalizing p with
  | nil => simp [idxmaxFold]
  | cons q r ih =>
    rw [idxmaxFold]
    by_cases h : p.2 < q.2
    · rw [if_pos h]
      rcases List.mem_cons.mp (ih q) with h1 | h1
      · rw [h1]
        simp
      · exact List.mem_cons_of_mem _ (List.mem_cons_of_mem _ h1)
    · rw [if_neg h]
      rcases List.mem_cons.mp (ih p) with h1 | h1
      · rw [h1]
        simp
      · exact List.mem_cons_of_mem _ (List.mem_cons_of_mem _ h1)

lemma idxmaxFold_le (p : ℕ × ℚ) (r : List (ℕ × ℚ)) :
    ∀ q ∈ p :: r, q.2 ≤ (idxmaxFold p r).2 := by
  induction r generalizing p with
  | nil =>
    intro q hq
    rcases List.mem_cons.mp hq with h1 | h1
    · rw [h1, idxmaxFold]
    · cases h1
  | cons x r ih =>
    intro q hq
    rw [idxmaxFold]
    have hple : p.2 ≤ (if p.2 < x.2 then x else p).2 := by
      split_ifs with h
      · exact le_of_lt h
      · exact le_refl _
    have hxle : x.2 ≤ (if p.2 < x.2 then x else p).2 := by
      split_ifs with h
      · exact le_refl _
      · exact le_of_not_lt h
    have hhead := ih (if p.2 < x.2 then x else p) _ (List.mem_cons_self _ _)
    rcases List.mem_cons.mp hq with h1 | h1
    · rw [h1]
      exact le_trans hple hhead
    · rcases List.mem_cons.mp h1 with h2 | h2
      · rw [h2]
        exact le_trans hxle hhead
      · exact ih _ q (List.mem_cons_of_mem _ h2)

lemma idxminFold_mem (p : ℕ × ℚ) (r : List (ℕ × ℚ)) : idxminFold p r ∈ p :: r := by
  induction r generalizing p with
  | nil => simp [idxminFold]
  | cons q r ih =>
    rw [idxminFold]
    by_cases h : q.2 < p.2
    · rw [if_pos h]
      rcases List.mem_cons.mp (ih q) with h1 | h1
      · rw [h1]
        simp
      · exact List.mem_cons_of_mem _ (List.mem_cons_of_mem _ h1)
    · rw [if_neg h]
      rcases List.mem_cons.mp (ih p) with h1 | h1
      · rw [h1]
        simp
      · exact List.mem_cons_of_mem _ (List.mem_cons_of_mem _ h1)

lemma idxminFold_le (p : ℕ × ℚ) (r : List (ℕ × ℚ)) :
    ∀ q ∈ p :: r, (idxminFold p r).2 ≤ q.2 := by
  induction r generalizing p with
  | nil =>
    intro q hq
    rcases List.mem_cons.mp hq with h1 | h1
    · rw [h1, idxminFold]
    · cases h1
  | cons x r ih =>
    intro q hq
    rw [idxminFold]
    have hple : (if x.2 < p.2 then x else p).2 ≤ p.2 := by
      split_ifs with h
      · exact le_of_lt h
      · exact le_refl _
    have hxle : (if x.2 < p.2 then x else p).2 ≤ x.2 := by
      split_ifs with h
      · exact le_refl _
      · exact le_of_not_lt h
    have hhead := ih (if x.2 < p.2 then x else p) _ (List.mem_cons_self _ _)
    rcases List.mem_cons.mp hq with h1 | h1
    · rw [h1]
      exact le_trans hhead hple
    · rcases List.mem_cons.mp h1 with h2 | h2
      · rw [h2]
        exact le_trans hhead hxle
      · exact ih _ q (List.mem_cons_of_mem _ h2)

lemma mem_seasonal_pattern (s : Series) (m : ℕ) (v : ℚ)
    (h : (m, v) ∈ seasonal_pattern s) : m ∈ monthsPresent s ∧ v = monthMean s m := by
  obtain ⟨m0, hm0, heq⟩ := List.mem_map.mp h
  obtain ⟨h1, h2⟩ := Prod.mk.inj heq
  subst h1
  exact ⟨hm0, h2.symm⟩

lemma patternSS_nonneg (s : Series) : 0 ≤ patternSS s := by
  unfold patternSS
  apply List.sum_nonneg
  intro x hx
  obtain ⟨p, _, hp⟩ := List.mem_map.mp hx
  rw [← hp]
  positivity

lemma monthMean_const (s : Series) (c : ℚ) (hc : ∀ p ∈ s, p.2 = c) (m : ℕ)
    (hm : m ∈ monthsPresent s) : monthMean s m = c := by
  obtain ⟨-, hany⟩ := List.mem_filter.mp hm
  obtain ⟨p, hp, hpm⟩ := List.any_eq_true.mp hany
  have hpfilter : p ∈ s.filter (fun q => q.1.m == m) := List.mem_filter.mpr ⟨hp, hpm⟩
  unfold monthMean
  have hall : ∀ x ∈ (s.filter (fun q => q.1.m == m)).map Prod.snd, x = c := by
    intro x hx
    obtain ⟨q, hq, hqx⟩ := List.mem_map.mp hx
    rw [← hqx]
    exact hc q (List.mem_filter.mp hq).1
  have hlen : ((s.filter (fun q => q.1.m == m)).map Prod.snd).length ≠ 0 := by
    simp only [List.length_map]
    exact Nat.pos_iff_ne_zero.mp (List.length_pos.mpr (List.ne_nil_of_mem hpfilter))
  rw [List.sum_eq_card_nsmul _ c hall, nsmul_eq_mul]
  exact mul_div_cancel_left₀ c (Nat.cast_ne_zero.mpr hlen)

lemma patternMean_const (s : Series) (c : ℚ) (hc : ∀ p ∈ s, p.2 = c)
    (hne : seasonal_pattern s ≠ []) : patternMean s = c := by
  unfold patternMean
  have hall : ∀ x ∈ (seasonal_pattern s).map Prod.snd, x = c := by
    intro x hx
    obtain ⟨p, hp, hpx⟩ := List.mem_map.mp hx
    obtain ⟨hm, hv⟩ := mem_seasonal_pattern s p.1 p.2 (by simpa using hp)
    rw [← hpx, hv]
    exact monthMean_const s c hc p.1 hm
  have hlen : (seasonal_pattern s).length ≠ 0 :=
    Nat.pos_iff_ne_zero.mp (List.length_pos.mpr hne)
  rw [List.sum_eq_card_nsmul _ c hall, nsmul_eq_mul]
  simp only [List.length_map]
  exact mul_div_cancel_left₀ c (Nat.cast_ne_zero.mpr hlen)

lemma patternSS_const (s : Series) (c : ℚ) (hc : ∀ p ∈ s, p.2 = c)
    (hne : seasonal_pattern s ≠ []) : patternSS s = 0 := by
  unfold patternSS
  apply List.sum_eq_zero
  intro x hx
  obtain ⟨p, hp, hpx⟩ := List.mem_map.mp hx
  obtain ⟨hm, hv⟩ := mem_seasonal_pattern s p.1 p.2 (by simpa using hp)
  rw [← hpx, hv, monthMean_const s c hc p.1 hm, patternMean_const s c hc hne]
  ring

lemma strengthExceeds_const (s : Series) (c : ℚ) (hc : ∀ p ∈ s, p.2 = c) :
    strengthExceeds s = false := by
  unfold strengthExceeds
  by_cases hk : 2 ≤ (seasonal_pattern s).length
  · have hne : seasonal_pattern s ≠ [] := by
      intro h
      rw [h] at hk
      simp at hk
    have hm := patternMean_const s c hc hne
    have hss := patternSS_const s c hc hne
    have hkq : (1 : ℚ) ≤ ((seasonal_pattern s).length : ℚ) - 1 := by
      have h2 : (2 : ℚ) ≤ ((seasonal_pattern s).length : ℚ) := by exact_mod_cast hk
      linarith
    have h1 : ¬ ((((seasonal_pattern s).length : ℚ) - 1) * patternMean s ^ 2
        < 100 * patternSS s) := by
      rw [hss, mul_zero]
      exact not_lt.mpr (by nlinarith [sq_nonneg (patternMean s)])
    simp only [h1, hss]
    simp
    intro _ _
    nlinarith [sq_nonneg (patternMean s), hkq]
  · simp [hk]

lemma cv_bridge (S m : ℝ) (k : ℕ) (hS : 0 ≤ S) (hk : 2 ≤ k) (hm : 0 < m) :
    ((k : ℝ) - 1) * m ^ 2 < 100 * S ↔
      1 / 10 < Real.sqrt (S / ((k : ℝ) - 1)) / m := by
  have hk1 : (0 : ℝ) < (k : ℝ) - 1 := by
    have h2 : (2 : ℝ) ≤ (k : ℝ) := by exact_mod_cast hk
    linarith
  rw [lt_div_iff₀ hm, Real.lt_sqrt (by positivity), lt_div_iff₀ hk1]
  constructor <;> intro h <;> nlinarith

lemma strengthExceeds_iff (s : Series) :
    strengthExceeds s = true ↔
      2 ≤ (seasonal_pattern s).length ∧
        ((0 < patternMean s ∧
            1 / 10 < Real.sqrt (((patternSS s : ℚ) : ℝ)
                / ((((seasonal_pattern s).length : ℕ) : ℝ) - 1))
              / ((patternMean s : ℚ) : ℝ))
          ∨ (patternMean s = 0 ∧ 0 < patternSS s)) := by
  unfold strengthExceeds
  simp only [Bool.and_eq_true, Bool.or_eq_true, decide_eq_true_eq]
  constructor
  · rintro ⟨hk, h⟩
    refine ⟨hk, ?_⟩
    rcases h with ⟨hm, hpoly⟩ | hz
    · left
      refine ⟨hm, ?_⟩
      refine (cv_bridge ((patternSS s : ℚ) : ℝ) ((patternMean s : ℚ) : ℝ)
        (seasonal_pattern s).length (by exact_mod_cast patternSS_nonneg s) hk
        (by exact_mod_cast hm)).mp ?_
      exact_mod_cast hpoly
    · right
      exact hz
  · rintro ⟨hk, h⟩
    refine ⟨hk, ?_⟩
    rcases h with ⟨hm, hsqrt⟩ | hz
    · left
      refine ⟨hm, ?_⟩
      have hb := (cv_bridge ((patternSS s : ℚ) : ℝ) ((patternMean s : ℚ) : ℝ)
        (seasonal_pattern s).length (by exact_mod_cast patternSS_nonneg s) hk
        (by exact_mod_cast hm)).mpr hsqrt
      exact_mod_cast hb
    · right
      exact hz

/-- C9: a seasonality record is emitted iff at least 12 year-month
buckets exist and the coefficient of variation (sample std over mean) of
the per-month-of-year means exceeds 0.1 under float semantics (at least
two month groups, and either a positive mean with `std/mean > 1/10`, or
the `+inf` case of a zero mean with positive deviations); the emitted
`peak_month`/`low_month` attain the maximum/minimum monthly mean; and a
constant-valued series yields no record. -/
theorem claimC9 (s : Series) :
    (seasonalRecord s ≠ none ↔
      12 ≤ monthlyBucketCount s ∧ 2 ≤ (seasonal_pattern s).length ∧
        ((0 < patternMean s ∧
            1 / 10 < Real.sqrt (((patternSS s : ℚ) : ℝ)
                / ((((seasonal_pattern s).length : ℕ) : ℝ) - 1))
              / ((patternMean s : ℚ) : ℝ))
          ∨ (patternMean s = 0 ∧ 0 < patternSS s)))
    ∧ (∀ rec, seasonalRecord s = some rec →
        rec.peak_month ∈ monthsPresent s ∧ rec.low_month ∈ monthsPresent s ∧
        (∀ m ∈ monthsPresent s, monthMean s m ≤ monthMean s rec.peak_month) ∧
        (∀ m ∈ monthsPresent s, monthMean s rec.low_month ≤ monthMean s m))
    ∧ ∀ c : ℚ, (∀ p ∈ s, p.2 = c) → seasonalRecord s = none := by
  refine ⟨?_, ?_, ?_⟩
  · have hrec : seasonalRecord s ≠ none ↔
        12 ≤ monthlyBucketCount s ∧ strengthExceeds s = true := by
      unfold seasonalRecord
      split_ifs with h12 hstr
      · simp [h12, hstr]
      · simp [h12, hstr]
      · simp [h12]
    rw [hrec, strengthExceeds_iff]
  · intro rec hrec
    unfold seasonalRecord at hrec
    split_ifs at hrec with h12 hstr
    · have hk : 2 ≤ (seasonal_pattern s).length := ((strengthExceeds_iff s).mp hstr).1
      rcases hpat : seasonal_pattern s with _ | ⟨p0, rest⟩
      · rw [hpat] at hk
        simp at hk
      · have hinj : rec = SeasonalRec.mk (idxmaxOf (seasonal_pattern s))
            (idxminOf (seasonal_pattern s)) := (Option.some.inj hrec).symm
        subst hinj
        simp only [hpat, idxmaxOf, idxminOf]
        have hmax_mem := idxmaxFold_mem p0 rest
        have hmax_le := idxmaxFold_le p0 rest
        have hmin_mem := idxminFold_mem p0 rest
        have hmin_le := idxminFold_le p0 rest
        rw [← hpat] at hmax_mem hmax_le hmin_mem hmin_le
        obtain ⟨hpkm, hpkv⟩ := mem_seasonal_pattern s (idxmaxFold p0 rest).1
          (idxmaxFold p0 rest).2 hmax_mem
        obtain ⟨hlwm, hlwv⟩ := mem_seasonal_pattern s (idxminFold p0 rest).1
          (idxminFold p0 rest).2 hmin_mem
        refine ⟨hpkm, hlwm, ?_, ?_⟩
        · intro m hm
          have hmempat : (m, monthMean s m) ∈ seasonal_pattern s := by
            unfold seasonal_pattern
            exact List.mem_map.mpr ⟨m, hm, rfl⟩
          have := hmax_le (m, monthMean s m) hmempat
          rw [← hpkv]
          exact this
        · intro m hm
          have hmempat : (m, monthMean s m) ∈ seasonal_pattern s := by
            unfold seasonal_pattern
            exact List.mem_map.mpr ⟨m, hm, rfl⟩
          have := hmin_le (m, monthMean s m) hmempat
          rw [← hlwv]
          exact this
  · intro c hc
    unfold seasonalRecord
    split_ifs with h12 hstr
    · rw [strengthExceeds_const s c hc] at hstr
      cases hstr
    · rfl
    · rfl

/-- Concrete 12-month constant series for the C9 witness. -/
def cs9 : Series := (List.range 12).map (fun k => (YM.mk 2024 (k + 1), 5))

/-- Witness for C9: a perfectly flat 12-month series yields no
seasonality record. -/
theorem claimC9_witness : seasonalRecord cs9 = none :=
  (claimC9 cs9).2.2 5 (by decide)

/-! ### prepare_time_series_data (visualizations.py)

Each raw cell of a result-set column is modelled by its parse
behaviour, all the function consumes: whether it is null, the result of
`pd.to_numeric` on the raw value (`none` when coercion fails), the
result of `pd.to_datetime` on the raw value (`none` when parsing
raises; a null cell becomes NaT without raising), the result of
`pd.to_datetime(str(value) + "-01")` (for a null cell `str` gives
"nan", so this is `none`), and whether `str(value)` has length at least
7 and contains a dash.  Dates are order-preserving integer codes. -/

structure VCell where
  isNull : Bool
  numP : Option ℚ
  dateP : Option ℤ
  dateMonthP : Option ℤ
  strLooksMonth : Bool
deriving DecidableEq, Repr

structure VCol where
  name : String
  cells : List VCell
deriving DecidableEq, Repr

/-- `data[col].dropna().head(10)`. -/
def headSample (c : VCol) : List VCell :=
  (c.cells.filter (fun x => !x.isNull)).take 10

/-- `any(word in col_str for word in ['date','time','month','year','day','period'])`. -/
def dateNameLike (n : String) : Bool :=
  ["date", "time", "month", "year", "day", "period"].any (fun w => containsSub n w)

/-- A column enters `date_columns` in the main scan: date-like name and
a nonempty head sample that fully parses as datetimes. -/
def detectsDate (c : VCol) : Bool :=
  dateNameLike c.name && decide (headSample c ≠ []) &&
    (headSample c).all (fun x => x.dateP.isSome)

/-- A column enters `numeric_columns`: a nonempty head sample wholly
coercible to numbers. -/
def detectsNum (c : VCol) : Bool :=
  decide (headSample c ≠ []) && (headSample c).all (fun x => x.numP.isSome)

/-- `date_columns` including the speculative first-column fallback
(lines 23-65 of `visualizations.py`): when the keyword scan found
nothing and at least two columns exist, the first column is retried
without the name test; if its head sample raises, the month-string
check on the first cell is tried instead. -/
def date_columns (t : List VCol) : List VCol :=
  if t.filter detectsDate = [] ∧ 2 ≤ t.length then
    match t with
    | [] => []
    | c0 :: _ =>
        if headSample c0 = [] then []
        else if (headSample c0).all (fun x => x.dateP.isSome) then [c0]
        else
          match c0.cells with
          | [] => []
          | x :: _ => if x.strLooksMonth && x.dateMonthP.isSome then [c0] else []
  else t.filter detectsDate

def numeric_columns (t : List VCol) : List VCol := t.filter detectsNum

/-- Full-column date conversion (lines 77-86): direct `pd.to_datetime`
(nulls become NaT, any failing non-null value raises), then the
month-string fallback `astype(str) + "-01"` (any failing cell, in
particular any null whose string is "nan", makes it raise), else the
function returns `None`. -/
def convertDates (c : VCol) : Option (List (Option ℤ)) :=
  if c.cells.all (fun x => x.isNull || x.dateP.isSome) then
    some (c.cells.map (fun x => if x.isNull then none else x.dateP))
  else if c.cells.all (fun x => x.dateMonthP.isSome) then
    some (c.cells.map (fun x => x.dateMonthP))
  else none

/-- `pd.to_numeric(ts_data[value_col], errors='coerce')`. -/
def coerceVals (c : VCol) : List (Option ℚ) :=
  c.cells.map (fun x => if x.isNull then none else x.numP)

/-- The returned frame: column names (always `['date', 'value']` by the
final rename) and rows. -/
structure PreparedTS where
  colNames : List String
  rows : List (Option ℤ × Option ℚ)
deriving DecidableEq, Repr

/-- Sort key of a row: its date. -/
def rowKey (p : Option ℤ × Option ℚ) : ℤ := p.1.getD 0

def insertRow (p : Option ℤ × Option ℚ) :
    List (Option ℤ × Option ℚ) → List (Option ℤ × Option ℚ)
  | [] => [p]
  | q :: r => if rowKey p ≤ rowKey q then p :: q :: r else q :: insertRow p r

/-- `ts_data.sort_values(date_col)`: rows in non-decreasing date
order. -/
def sortRows : List (Option ℤ × Option ℚ) → List (Option ℤ × Option ℚ)
  | [] => []
  | p :: r => insertRow p (sortRows r)

/-- `prepare_time_series_data` of `visualizations.py`. -/
def prepare_time_series_data (t : List VCol) : Option PreparedTS :=
  match t with
  | [] => none
  | c0 :: rest =>
    if c0.cells.length = 0 then none
    else
      match date_columns (c0 :: rest), numeric_columns (c0 :: rest) with
      | dc :: _, nc :: _ =>
          match convertDates dc with
          | none => none
          | some dvals =>
              if (dvals.zip (coerceVals nc)).filter
                  (fun p => p.1.isSome && p.2.isSome) = [] then none
              else some ⟨["date", "value"],
                sortRows ((dvals.zip (coerceVals nc)).filter
                  (fun p => p.1.isSome && p.2.isSome))⟩
      | _, _ => none

lemma mem_insertRow (p x : Option ℤ × Option ℚ) (l : List (Option ℤ × Option ℚ)) :
    x ∈ insertRow p l ↔ x = p ∨ x ∈ l := by
  induction l with
  | nil => simp [insertRow]
  | cons q r ih =>
    rw [insertRow]
    split_ifs with h
    · constructor
      · intro hx
        rcases List.mem_cons.mp hx with h1 | h1
        · exact Or.inl h1
        · exact Or.inr h1
      · intro hx
        rcases hx with h1 | h1
        · exact List.mem_cons.mpr (Or.inl h1)
        · exact List.mem_cons.mpr (Or.inr h1)
    · constructor
      · intro hx
        rcases List.mem_cons.mp hx with h1 | h1
        · exact Or.inr (List.mem_cons.mpr (Or.inl h1))
        · rcases ih.mp h1 with h2 | h2
          · exact Or.inl h2
          · exact Or.inr (List.mem_cons.mpr (Or.inr h2))
      · intro hx
        rcases hx with h1 | h1
        · exact List.mem_cons.mpr (Or.inr (ih.mpr (Or.inl h1)))
        · rcases List.mem_cons.mp h1 with h2 | h2
          · exact List.mem_cons.mpr (Or.inl h2)
          · exact List.mem_cons.mpr (Or.inr (ih.mpr (Or.inr h2)))

lemma mem_sortRows (x : Option ℤ × Option ℚ) (l : List (Option ℤ × Option ℚ)) :
    x ∈ sortRows l ↔ x ∈ l := by
  induction l with
  | nil => simp [sortRows]
  | cons p r ih =>
    rw [sortRows, mem_insertRow]
    rw [List.mem_cons]
    rw [ih]

lemma sorted_insertRow (p : Option ℤ × Option ℚ) (l : List (Option ℤ × Option ℚ))
    (h : ((l.map rowKey).Sorted (· ≤ ·))) :
    (((insertRow p l).map rowKey).Sorted (· ≤ ·)) := by
  induction l with
  | nil => simp [insertRow, List.Sorted]
  | cons q r ih =>
    rw [insertRow]
    rw [List.map_cons, List.sorted_cons] at h
    split_ifs with hpq
    · rw [List.map_cons, List.sorted_cons]
      refine ⟨?_, ?_⟩
      · intro b hb
        rw [List.map_cons] at hb
        rcases List.mem_cons.mp hb with h1 | h1
        · rw [h1]
          exact hpq
        · obtain ⟨y, hy, hyb⟩ := List.mem_map.mp h1
          rw [← hyb]
          exact le_trans hpq (h.1 (rowKey y) (List.mem_map.mpr ⟨y, hy, rfl⟩))
      · rw [List.map_cons, List.sorted_cons]
        exact h
    · rw [List.map_cons, List.sorted_cons]
      refine ⟨?_, ih h.2⟩
      intro b hb
      obtain ⟨y, hy, hyb⟩ := List.mem_map.mp hb
      rcases (mem_insertRow p y r).mp hy with h1 | h1
      · rw [← hyb, h1]
        exact le_of_not_le hpq
      · rw [← hyb]
        exact h.1 (rowKey y) (List.mem_map.mpr ⟨y, h1, rfl⟩)

lemma sorted_sortRows (l : List (Option ℤ × Option ℚ)) :
    ((sortRows l).map rowKey).Sorted (· ≤ ·) := by
  induction l with
  | nil => simp [sortRows, List.Sorted]
  | cons p r ih => exact sorted_insertRow p (sortRows r) ih

/-- C10: `prepare_time_series_data` returns either `None` or a frame
with exactly the two columns named date and value whose rows contain no
null entry and are in non-decreasing date order; and it returns `None`
whenever the input is empty, no date-like column is detected, no
numeric column is detected, or every row is dropped by the NaN
filter after coercion. -/
theorem claimC10 (t : List VCol) :
    (∀ f, prepare_time_series_data t = some f →
        f.colNames = ["date", "value"]
        ∧ (∀ p ∈ f.rows, p.1.isSome ∧ p.2.isSome)
        ∧ (f.rows.map rowKey).Sorted (· ≤ ·))
    ∧ (t = [] → prepare_time_series_data t = none)
    ∧ (∀ c0 rest, t = c0 :: rest → c0.cells.length = 0 →
        prepare_time_series_data t = none)
    ∧ (date_columns t = [] → prepare_time_series_data t = none)
    ∧ (numeric_columns t = [] → prepare_time_series_data t = none)
    ∧ (∀ dc dtl nc ntl dvals, date_columns t = dc :: dtl →
        numeric_columns t = nc :: ntl → convertDates dc = some dvals →
        (dvals.zip (coerceVals nc)).filter (fun p => p.1.isSome && p.2.isSome) = [] →
        prepare_time_series_data t = none) := by
  refine ⟨?_, ?_, ?_, ?_, ?_, ?_⟩
  · intro f hf
    unfold prepare_time_series_data at hf
    rcases t with _ | ⟨c0, rest⟩
    · cases hf
    · dsimp only at hf
      split_ifs at hf with hemp
      rcases hdc : date_columns (c0 :: rest) with _ | ⟨dc, dtl⟩ <;> rw [hdc] at hf
      · dsimp only at hf
        cases hf
      rcases hnc : numeric_columns (c0 :: rest) with _ | ⟨nc, ntl⟩ <;> rw [hnc] at hf
      · dsimp only at hf
        cases hf
      dsimp only at hf
      rcases hcv : convertDates dc with _ | dvals <;> rw [hcv] at hf
      · cases hf
      dsimp only at hf
      split_ifs at hf with hrows
      have hfval : f = PreparedTS.mk ["date", "value"]
          (sortRows ((dvals.zip (coerceVals nc)).filter
            (fun p => p.1.isSome && p.2.isSome))) := (Option.some.inj hf).symm
      subst hfval
      refine ⟨rfl, ?_, sorted_sortRows _⟩
      intro p hp
      have hmem := (mem_sortRows p _).mp hp
      have hfilt := (List.mem_filter.mp hmem).2
      simp only [Bool.and_eq_true] at hfilt
      exact hfilt
  · intro ht
    rw [ht]
    rfl
  · intro c0 rest ht h0
    subst ht
    unfold prepare_time_series_data
    dsimp only
    rw [if_pos h0]
  · intro hd
    unfold prepare_time_series_data
    rcases t with _ | ⟨c0, rest⟩
    · rfl
    · dsimp only
      split_ifs with hemp
      · rfl
      · rw [hd]
  · intro hn
    unfold prepare_time_series_data
    rcases t with _ | ⟨c0, rest⟩
    · rfl
    · dsimp only
      split_ifs with hemp
      · rfl
      · rw [hn]
        rcases date_columns (c0 :: rest) with _ | ⟨dc, dtl⟩ <;> rfl
  · intro dc dtl nc ntl dvals hdc hnc hcv hempty
    unfold prepare_time_series_data
    rcases t with _ | ⟨c0, rest⟩
    · rfl
    · dsimp only
      split_ifs with hemp
      · rfl
      · rw [hdc, hnc]
        dsimp only
        rw [hcv]
        dsimp only
        rw [if_pos hempty]

/-- Concrete table for the C10 witness: a date-named parseable column
and a numeric column, two rows given out of date order. -/
def w10 : List VCol :=
  [⟨"order_date",
    [⟨false, none, some 20, some 20, false⟩, ⟨false, none, some 10, some 10, false⟩]⟩,
   ⟨"amount",
    [⟨false, some 7, none, none, false⟩, ⟨false, some 3, none, none, false⟩]⟩]

/-- The frame produced on `w10`. -/
def w10frame : PreparedTS :=
  ⟨["date", "value"], [(some 10, some 3), (some 20, some 7)]⟩

/-- Witness for C10 at a concrete table: the returned frame is renamed
to date/value and its rows are sorted. -/
theorem claimC10_witness :
    w10frame.colNames = ["date", "value"]
    ∧ (w10frame.rows.map rowKey).Sorted (· ≤ ·) :=
  ⟨((claimC10 w10).1 w10frame rfl).1, ((claimC10 w10).1 w10frame rfl).2.2⟩
